import Mathlib

/-!
Verification of the PhantomTTY escape-sequence interpreter and screen buffer
(`src/main.rs`). The `VteTerminal` structure and its operations (`process`,
`get_screen`, `clear_screen`, `move_cursor`, `erase_in_line`, the `Perform`
callbacks `print`, `execute`, `csi_dispatch`) are shallowly embedded below,
translated directly from the Rust source. Machine integers (`usize`) are
modelled as `Nat`; Rust's `saturating_sub` coincides with truncated `Nat`
subtraction. The `vte::Parser` byte-stream state machine is an external crate,
not part of this repository's source; it is modelled from the spec (section 3:
scan state Ground / Escape / CSI-collecting-parameters with a pending numeric
parameter buffer, advanced byte-by-byte).
-/

/-- The screen buffer of `VteTerminal` (src/main.rs lines 25-31): a row-major
grid of cells, a cursor and fixed dimensions. -/
structure VteTerminal where
  screen : List Char
  cursor_x : Nat
  cursor_y : Nat
  width : Nat
  height : Nat
  deriving DecidableEq, Repr

namespace VteTerminal

/-- `VteTerminal::new` (lines 34-42): all cells blank, cursor at the origin. -/
def new (width height : Nat) : VteTerminal :=
  ⟨List.replicate (width * height) ' ', 0, 0, width, height⟩

/-- The cursor lies strictly inside the grid. -/
def inBounds (s : VteTerminal) : Prop :=
  s.cursor_x < s.width ∧ s.cursor_y < s.height

instance (s : VteTerminal) : Decidable s.inBounds := by
  unfold inBounds; infer_instance

/-- The per-byte clamp inside `VteTerminal::process` (lines 48-52): when the
cursor is out of bounds it is pulled back with `min` (the Rust code also logs
a warning; logging is not modelled). -/
def clampCursor (s : VteTerminal) : VteTerminal :=
  if s.width ≤ s.cursor_x ∨ s.height ≤ s.cursor_y then
    { s with cursor_x := min s.cursor_x (s.width - 1),
             cursor_y := min s.cursor_y (s.height - 1) }
  else s

/-- `VteTerminal::clear_screen` (lines 65-69). -/
def clear_screen (s : VteTerminal) : VteTerminal :=
  { s with screen := List.replicate (s.width * s.height) ' ',
           cursor_x := 0, cursor_y := 0 }

/-- `VteTerminal::move_cursor` (lines 71-74). -/
def move_cursor (s : VteTerminal) (row col : Nat) : VteTerminal :=
  { s with cursor_y := min row (s.height - 1),
           cursor_x := min col (s.width - 1) }

/-- `screen[start..stop].fill(' ')`: blank the cells with index in
`[start, stop)`, leaving the length unchanged (Rust slice `fill`). -/
def fillRange (l : List Char) (start stop : Nat) : List Char :=
  l.mapIdx fun i c => if start ≤ i ∧ i < stop then ' ' else c

/-- `VteTerminal::erase_in_line` (lines 76-85): the start index depends on the
mode, the end index is uniformly the end of the current row. -/
def erase_in_line (s : VteTerminal) (mode : Nat) : VteTerminal :=
  let startOpt : Option Nat :=
    match mode with
    | 0 => some (s.cursor_y * s.width + s.cursor_x)
    | 1 => some (s.cursor_y * s.width)
    | 2 => some 0
    | _ => none
  match startOpt with
  | none => s
  | some start =>
      { s with screen := fillRange s.screen start ((s.cursor_y + 1) * s.width) }

/-- `Perform::print` (lines 89-106): deferred wrap at `cursor_x == width`,
scroll when the row passes the bottom, write the character, advance. -/
def print (s : VteTerminal) (c : Char) : VteTerminal :=
  let s1 := if s.width ≤ s.cursor_x then
      { s with cursor_x := 0, cursor_y := s.cursor_y + 1 } else s
  let s2 := if s1.height ≤ s1.cursor_y then
      { s1 with screen := s1.screen.drop s1.width ++ List.replicate s1.width ' ',
                cursor_y := s1.height - 1 } else s1
  let pos := s2.cursor_y * s2.width + s2.cursor_x
  let s3 := if pos < s2.screen.length then
      { s2 with screen := s2.screen.set pos c } else s2
  { s3 with cursor_x := s3.cursor_x + 1 }

/-- `Perform::execute` (lines 108-123): CR, LF (with scroll), BS, FF. -/
def execute (s : VteTerminal) (byte : Nat) : VteTerminal :=
  if byte = 13 then { s with cursor_x := 0 }
  else if byte = 10 then
    let s1 := { s with cursor_y := s.cursor_y + 1 }
    if s1.height ≤ s1.cursor_y then
      { s1 with screen := s1.screen.drop s1.width ++ List.replicate s1.width ' ',
                cursor_y := s1.height - 1 }
    else s1
  else if byte = 8 then
    (if 0 < s.cursor_x then { s with cursor_x := s.cursor_x - 1 } else s)
  else if byte = 12 then s.clear_screen
  else s

/-- The `param` closure of `csi_dispatch` (lines 131-137): the parameter at
`idx`, defaulting to 1 when absent. -/
def getParam (params : List Nat) (idx : Nat) : Nat :=
  params.getD idx 1

/-- `Perform::csi_dispatch` (lines 130-182): cursor moves `A`/`B`/`C`/`D`,
position `H`/`f`, erase in display `J`, erase in line `K`; anything else is
discarded. `usize` casts keep the numeric value. -/
def csi_dispatch (s : VteTerminal) (params : List Nat) (c : Char) : VteTerminal :=
  match c with
  | 'A' => { s with cursor_y := s.cursor_y - getParam params 0 }
  | 'B' => { s with cursor_y := min (s.cursor_y + getParam params 0) (s.height - 1) }
  | 'C' => { s with cursor_x := min (s.cursor_x + getParam params 0) (s.width - 1) }
  | 'D' => { s with cursor_x := s.cursor_x - getParam params 0 }
  | 'H' => s.move_cursor (getParam params 0 - 1) (getParam params 1 - 1)
  | 'f' => s.move_cursor (getParam params 0 - 1) (getParam params 1 - 1)
  | 'J' =>
      match getParam params 0 with
      | 0 => { s with screen :=
                 fillRange s.screen (s.cursor_y * s.width + s.cursor_x) s.screen.length }
      | 1 => { s with screen :=
                 fillRange s.screen 0 (s.cursor_y * s.width + s.cursor_x + 1) }
      | 2 => s.clear_screen
      | 3 => s.clear_screen
      | _ => s
  | 'K' => s.erase_in_line (getParam params 0)
  | _ => s

end VteTerminal

/-- Scan state of the escape-sequence parser. Modelled from the spec:
"`scan_state`: enumerated parser state (Ground, Escape,
CSI-collecting-parameters, ...)". -/
inductive ScanState where
  | ground
  | escape
  | csi
  deriving DecidableEq, Repr

/-- Parser state. Modelled from the spec: the scan state together with the
"pending numeric parameter buffer" for CSI sequences (`vte::Parser` is an
external crate, not part of this repository's source). -/
structure ParserSt where
  state : ScanState
  csi_params : List Nat
  csi_current : Nat
  csi_hasParam : Bool
  deriving DecidableEq, Repr

/-- `Parser::new()`: ground state, no pending parameters. -/
def ParserSt.new : ParserSt := ⟨.ground, [], 0, false⟩

/-- One step of `parser.advance(self, byte)`. Modelled from the spec: the
byte-stream state machine classifies each byte (printable, control,
escape/CSI) and invokes the matching `Perform` callback of `VteTerminal`:
printable bytes (0x20-0x7E) in ground state go to `print`, C0 control bytes
to `execute`, ESC starts an escape sequence, `ESC [` starts a CSI sequence
whose decimal parameters (separated by `;`) are collected digit by digit, and
a final byte in 0x40-0x7E fires `csi_dispatch`; everything else recognized by
the parser is accepted and discarded. -/
def advance (p : ParserSt) (s : VteTerminal) (byte : Nat) : ParserSt × VteTerminal :=
  match p.state with
  | .ground =>
      if byte = 27 then ({ p with state := .escape }, s)
      else if 32 ≤ byte ∧ byte ≤ 126 then (p, s.print (Char.ofNat byte))
      else if byte < 32 then (p, s.execute byte)
      else (p, s)
  | .escape =>
      if byte = 91 then (⟨.csi, [], 0, false⟩, s)
      else if byte = 27 then (p, s)
      else if byte < 32 then (p, s.execute byte)
      else ({ p with state := .ground }, s)
  | .csi =>
      if byte = 27 then ({ p with state := .escape }, s)
      else if 48 ≤ byte ∧ byte ≤ 57 then
        ({ p with csi_current := p.csi_current * 10 + (byte - 48),
                  csi_hasParam := true }, s)
      else if byte = 59 then
        ({ p with csi_params := p.csi_params ++ [p.csi_current],
                  csi_current := 0, csi_hasParam := true }, s)
      else if 64 ≤ byte ∧ byte ≤ 126 then
        let ps := if p.csi_hasParam then p.csi_params ++ [p.csi_current]
                  else p.csi_params
        (ParserSt.new, s.csi_dispatch ps (Char.ofNat byte))
      else if byte < 32 then (p, s.execute byte)
      else (p, s)

/-- One iteration of the loop in `VteTerminal::process` (lines 46-53):
advance the parser on one byte, then unconditionally clamp the cursor. -/
def stepByte (ps : ParserSt × VteTerminal) (byte : Nat) : ParserSt × VteTerminal :=
  let r := advance ps.1 ps.2 byte
  (r.1, r.2.clampCursor)

/-- `VteTerminal::process` (lines 44-54). Note the faithful translation of
`let mut parser = Parser::new();`: a fresh parser is constructed on every
call, and its final state is dropped when the call returns. -/
def process (s : VteTerminal) (data : List Nat) : VteTerminal :=
  (data.foldl stepByte (ParserSt.new, s)).2

/-- Chunking used by `get_screen`: Rust's `chunks(width)` on the cell vector,
written with explicit fuel so that it is structurally recursive (the fuel is
instantiated with the list length, which always suffices for positive width). -/
def chunksFuel (w : Nat) : Nat → List Char → List (List Char)
  | _, [] => []
  | 0, _ :: _ => []
  | fuel + 1, x :: xs => (x :: xs).take w :: chunksFuel w fuel ((x :: xs).drop w)

/-- `VteTerminal::get_screen` (lines 56-63): for every width-sized chunk of
the cell vector, append the chunk and then a newline. -/
def VteTerminal.get_screen (s : VteTerminal) : List Char :=
  (chunksFuel s.width s.screen.length s.screen).foldl
    (fun acc row => acc ++ row ++ ['\n']) []

/-- The `TERM` selection in `PhantomTTY::new` (lines 367-372): an exact match
on the full shell path chooses the advertised terminal type. -/
def term_for (shell_path : String) : String :=
  if shell_path = "/bin/bash" ∨ shell_path = "/usr/bin/bash" then "xterm-256color"
  else if shell_path = "/bin/zsh" ∨ shell_path = "/usr/bin/zsh" then "xterm-256color"
  else if shell_path = "/bin/fish" ∨ shell_path = "/usr/bin/fish" then "xterm-256color"
  else "vt100"

/-- Big-endian decimal digits of `n` (the digit string a producer writes for
the numeric parameter `n` of a CSI sequence). -/
def digitsBE (n : Nat) : List Nat :=
  if n = 0 then [0] else (Nat.digits 10 n).reverse

/-- ASCII bytes of the decimal numeral for `n`. -/
def digitBytes (n : Nat) : List Nat :=
  (digitsBE n).map (· + 48)

/-- The byte sequence `ESC [ <decimal n> <final>`. -/
def csiSeq (n : Nat) (final : Nat) : List Nat :=
  [27, 91] ++ digitBytes n ++ [final]

/-- The byte sequence `ESC [ <final>` with no parameter. -/
def csiSeqNP (final : Nat) : List Nat :=
  [27, 91, final]

/-- Specification-side description of the snapshot text: `h` lines, each the
next `w` cells followed by a newline. -/
def gridLines : Nat → Nat → List Char → List Char
  | 0, _, _ => []
  | h + 1, w, cells => cells.take w ++ '\n' :: gridLines h w (cells.drop w)

namespace VteTerminal

theorem clampCursor_screen (s : VteTerminal) : (clampCursor s).screen = s.screen := by
  unfold clampCursor; split <;> rfl

theorem clampCursor_width (s : VteTerminal) : (clampCursor s).width = s.width := by
  unfold clampCursor; split <;> rfl

theorem clampCursor_height (s : VteTerminal) : (clampCursor s).height = s.height := by
  unfold clampCursor; split <;> rfl

theorem clampCursor_eq_self (s : VteTerminal)
    (hx : s.cursor_x < s.width) (hy : s.cursor_y < s.height) :
    clampCursor s = s := by
  unfold clampCursor
  rw [if_neg]
  omega

theorem clampCursor_inBounds (s : VteTerminal) (hw : 0 < s.width) (hh : 0 < s.height) :
    (clampCursor s).inBounds := by
  unfold clampCursor inBounds
  split
  · refine ⟨?_, ?_⟩ <;> simp <;> omega
  · refine ⟨?_, ?_⟩ <;> omega

theorem print_width (s : VteTerminal) (c : Char) : (s.print c).width = s.width := by
  simp only [print]
  repeat' split
  all_goals rfl

theorem print_height (s : VteTerminal) (c : Char) : (s.print c).height = s.height := by
  simp only [print]
  repeat' split
  all_goals rfl

theorem execute_width (s : VteTerminal) (b : Nat) : (s.execute b).width = s.width := by
  simp only [execute, clear_screen]
  repeat' split
  all_goals rfl

theorem execute_height (s : VteTerminal) (b : Nat) : (s.execute b).height = s.height := by
  simp only [execute, clear_screen]
  repeat' split
  all_goals rfl

theorem csi_dispatch_width (s : VteTerminal) (ps : List Nat) (c : Char) :
    (s.csi_dispatch ps c).width = s.width := by
  simp only [csi_dispatch, move_cursor, erase_in_line, clear_screen]
  repeat' split
  all_goals rfl

theorem csi_dispatch_height (s : VteTerminal) (ps : List Nat) (c : Char) :
    (s.csi_dispatch ps c).height = s.height := by
  simp only [csi_dispatch, move_cursor, erase_in_line, clear_screen]
  repeat' split
  all_goals rfl

end VteTerminal

theorem fillRange_length (l : List Char) (a b : Nat) :
    (VteTerminal.fillRange l a b).length = l.length := by
  simp [VteTerminal.fillRange]

theorem advance_width (p : ParserSt) (s : VteTerminal) (b : Nat) :
    (advance p s b).2.width = s.width := by
  rcases p with ⟨st, ps, cur, hp⟩
  cases st <;> simp only [advance] <;> repeat' split
  all_goals simp [VteTerminal.print_width, VteTerminal.execute_width,
    VteTerminal.csi_dispatch_width]

theorem advance_height (p : ParserSt) (s : VteTerminal) (b : Nat) :
    (advance p s b).2.height = s.height := by
  rcases p with ⟨st, ps, cur, hp⟩
  cases st <;> simp only [advance] <;> repeat' split
  all_goals simp [VteTerminal.print_height, VteTerminal.execute_height,
    VteTerminal.csi_dispatch_height]

namespace VteTerminal

theorem print_length (s : VteTerminal) (c : Char)
    (hlen : s.screen.length = s.width * s.height) (hh : 0 < s.height) :
    (s.print c).screen.length = s.width * s.height := by
  have hw : s.width ≤ s.screen.length := by
    rw [hlen]; exact Nat.le_mul_of_pos_right _ hh
  simp only [print]
  repeat' split
  all_goals simp_all [List.length_set, List.length_append, List.length_drop,
    List.length_replicate]

theorem execute_length (s : VteTerminal) (b : Nat)
    (hlen : s.screen.length = s.width * s.height) (hh : 0 < s.height) :
    (s.execute b).screen.length = s.width * s.height := by
  have hw : s.width ≤ s.screen.length := by
    rw [hlen]; exact Nat.le_mul_of_pos_right _ hh
  simp only [execute, clear_screen]
  repeat' split
  all_goals simp_all [List.length_append, List.length_drop, List.length_replicate]

theorem csi_dispatch_length (s : VteTerminal) (ps : List Nat) (c : Char)
    (hlen : s.screen.length = s.width * s.height) :
    (s.csi_dispatch ps c).screen.length = s.width * s.height := by
  simp only [csi_dispatch, move_cursor, erase_in_line, clear_screen]
  repeat' split
  all_goals simp_all [fillRange_length, List.length_replicate]

end VteTerminal

theorem advance_length (p : ParserSt) (s : VteTerminal) (b : Nat)
    (hlen : s.screen.length = s.width * s.height) (hh : 0 < s.height) :
    (advance p s b).2.screen.length = s.width * s.height := by
  rcases p with ⟨st, ps, cur, hp⟩
  cases st <;> simp only [advance] <;> repeat' split
  all_goals
    first
      | exact hlen
      | exact VteTerminal.print_length _ _ hlen hh
      | exact VteTerminal.execute_length _ _ hlen hh
      | exact VteTerminal.csi_dispatch_length _ _ _ hlen

theorem stepByte_eq (p : ParserSt) (t : VteTerminal) (b : Nat) :
    stepByte (p, t) b = ((advance p t b).1, (advance p t b).2.clampCursor) := rfl

theorem foldl_dims_inBounds (data : List Nat) : ∀ (p : ParserSt) (t : VteTerminal),
    0 < t.width → 0 < t.height →
    ((data.foldl stepByte (p, t)).2.width = t.width ∧
     (data.foldl stepByte (p, t)).2.height = t.height ∧
     (t.inBounds → (data.foldl stepByte (p, t)).2.inBounds)) := by
  induction data with
  | nil => exact fun p t _ _ => ⟨rfl, rfl, fun h => h⟩
  | cons b rest ih =>
      intro p t hw hh
      rw [List.foldl_cons, stepByte_eq]
      have hw' : 0 < (advance p t b).2.clampCursor.width := by
        rw [VteTerminal.clampCursor_width, advance_width]; exact hw
      have hh' : 0 < (advance p t b).2.clampCursor.height := by
        rw [VteTerminal.clampCursor_height, advance_height]; exact hh
      obtain ⟨hW, hH, hIB⟩ :=
        ih (advance p t b).1 ((advance p t b).2.clampCursor) hw' hh'
      refine ⟨?_, ?_, fun _ => ?_⟩
      · rw [hW, VteTerminal.clampCursor_width, advance_width]
      · rw [hH, VteTerminal.clampCursor_height, advance_height]
      · refine hIB (VteTerminal.clampCursor_inBounds _ ?_ ?_)
        · rw [advance_width]; exact hw
        · rw [advance_height]; exact hh

theorem foldl_length (data : List Nat) : ∀ (p : ParserSt) (t : VteTerminal),
    0 < t.height → t.screen.length = t.width * t.height →
    (data.foldl stepByte (p, t)).2.screen.length = t.width * t.height := by
  induction data with
  | nil => exact fun p t _ hlen => hlen
  | cons b rest ih =>
      intro p t hh hlen
      rw [List.foldl_cons, stepByte_eq]
      have h2 := advance_length p t b hlen hh
      have hh' : 0 < (advance p t b).2.clampCursor.height := by
        rw [VteTerminal.clampCursor_height, advance_height]; exact hh
      have hlen' : (advance p t b).2.clampCursor.screen.length =
          (advance p t b).2.clampCursor.width * (advance p t b).2.clampCursor.height := by
        rw [VteTerminal.clampCursor_screen, VteTerminal.clampCursor_width,
          VteTerminal.clampCursor_height, advance_width, advance_height, h2]
      have hres := ih (advance p t b).1 ((advance p t b).2.clampCursor) hh' hlen'
      rwa [VteTerminal.clampCursor_width, VteTerminal.clampCursor_height,
        advance_width, advance_height] at hres

/-- C1: the claim says parser scan state persists across `process` calls and
is never reset between them, so a split byte stream is interpreted exactly as
the unsplit stream. The code constructs a fresh `Parser::new()` inside every
`process` call, discarding scan state at each call boundary: on a blank 2 by 2
buffer, feeding `ESC [ 2` and then `J` in two calls prints a literal `J` at
the origin, while the unsplit `ESC [ 2 J` clears the screen. -/
theorem spec_C1_split_processing_diverges :
    process (process (VteTerminal.new 2 2) [27, 91, 50]) [74] ≠
      process (VteTerminal.new 2 2) [27, 91, 50, 74] ∧
    process (VteTerminal.new 2 2) [27, 91, 50, 74] = VteTerminal.new 2 2 ∧
    (process (process (VteTerminal.new 2 2) [27, 91, 50]) [74]).screen.get? 0 =
      some 'J' := by
  decide

/-- C2: the claim says N printable characters from the origin leave the cursor
at column `N mod W`, row `min(N div W, H-1)`, with wrap at column `W`. In the
code the per-byte clamp inside `process` pulls `cursor_x` back from `W` to
`W-1` before the next byte is handled, so `print`'s deferred-wrap branch never
fires through `process`: after `"abcdef"` on a 5 by 2 buffer the cursor is at
column 4 row 0 (the claim predicts column 1 row 1) and `'f'` has overwritten
`'e'` in the last cell of row 0. -/
theorem spec_C2_wrap_is_dead_through_process :
    process (VteTerminal.new 5 2) [97, 98, 99, 100, 101, 102] =
      ⟨['a', 'b', 'c', 'd', 'f', ' ', ' ', ' ', ' ', ' '], 4, 0, 5, 2⟩ ∧
    ¬((process (VteTerminal.new 5 2) [97, 98, 99, 100, 101, 102]).cursor_x = 6 % 5 ∧
      (process (VteTerminal.new 5 2) [97, 98, 99, 100, 101, 102]).cursor_y =
        min (6 / 5) (2 - 1)) := by
  decide

/-- C4: the claim says erase-in-line mode 1 clears only from the start of the
row through the cursor, and mode 2 clears exactly the current row. The code
fixes the fill end at `(cursor_y+1)*width` and only varies the start, so on
the 2 by 2 buffer `p q / r s` with the cursor at column 0 of row 1, mode 1
clears the whole row (the cell after the cursor, which the claim requires to
keep `'s'`, is blanked) and mode 2 also blanks row 0, which the claim requires
to stay untouched; unrecognized modes are no-ops as claimed, and `CSI 2 K`
through `process` shows the same overreach. -/
theorem spec_C4_erase_in_line_overreach :
    ((⟨['p', 'q', 'r', 's'], 0, 1, 2, 2⟩ : VteTerminal).erase_in_line 1).screen =
      ['p', 'q', ' ', ' '] ∧
    ((⟨['p', 'q', 'r', 's'], 0, 1, 2, 2⟩ : VteTerminal).erase_in_line 1).screen ≠
      ['p', 'q', ' ', 's'] ∧
    ((⟨['p', 'q', 'r', 's'], 0, 1, 2, 2⟩ : VteTerminal).erase_in_line 2).screen =
      [' ', ' ', ' ', ' '] ∧
    ((⟨['p', 'q', 'r', 's'], 0, 1, 2, 2⟩ : VteTerminal).erase_in_line 2).screen ≠
      ['p', 'q', ' ', ' '] ∧
    (⟨['p', 'q', 'r', 's'], 0, 1, 2, 2⟩ : VteTerminal).erase_in_line 5 =
      ⟨['p', 'q', 'r', 's'], 0, 1, 2, 2⟩ ∧
    (process (⟨['p', 'q', 'r', 's'], 0, 1, 2, 2⟩ : VteTerminal) [27, 91, 50, 75]).screen =
      [' ', ' ', ' ', ' '] := by
  decide

/-- C5 counterexample: the claim says the snapshot is `height` lines joined by
`height-1` newlines with nothing after the last line. `get_screen` pushes a
newline after every row, the last included: on a 1 by 1 blank buffer the
snapshot is the two characters `" \n"`, not the single character `" "`. -/
theorem spec_C5_counterexample :
    (VteTerminal.new 1 1).get_screen = [' ', '\n'] ∧
    (VteTerminal.new 1 1).get_screen ≠ [' '] := by
  decide

/-- C6 counterexample: the claim says the `TERM` value is derived from the
shell basename, so any path with basename `bash` maps to `xterm-256color`.
The code matches the full path string, and `/usr/local/bin/bash` is not in
its table, so it maps to `vt100`. -/
theorem spec_C6_counterexample :
    term_for "/usr/local/bin/bash" = "vt100" ∧
    term_for "/usr/local/bin/bash" ≠ "xterm-256color" := by
  decide

/-- C6 amended: the advertised `TERM` value is selected by an exact match on
the full shell path: exactly the six paths `/bin/bash`, `/usr/bin/bash`,
`/bin/zsh`, `/usr/bin/zsh`, `/bin/fish`, `/usr/bin/fish` yield
`xterm-256color`, and every other path string (whatever its basename)
yields `vt100`. -/
theorem spec_C6_term_from_full_path (p : String) :
    (term_for p = "xterm-256color" ↔
      (p = "/bin/bash" ∨ p = "/usr/bin/bash" ∨ p = "/bin/zsh" ∨ p = "/usr/bin/zsh" ∨
       p = "/bin/fish" ∨ p = "/usr/bin/fish")) ∧
    (term_for p = "xterm-256color" ∨ term_for p = "vt100") := by
  unfold term_for
  split_ifs with h1 h2 h3
  · exact ⟨⟨fun _ => by tauto, fun _ => rfl⟩, Or.inl rfl⟩
  · exact ⟨⟨fun _ => by tauto, fun _ => rfl⟩, Or.inl rfl⟩
  · exact ⟨⟨fun _ => by tauto, fun _ => rfl⟩, Or.inl rfl⟩
  · refine ⟨⟨fun hx => absurd hx (by decide), fun hx => ?_⟩, Or.inr rfl⟩
    tauto

theorem erase_in_line_length (s : VteTerminal) (mode : Nat) :
    (s.erase_in_line mode).screen.length = s.screen.length := by
  simp only [VteTerminal.erase_in_line]
  repeat' split
  all_goals simp [fillRange_length]

theorem step_ground_esc (ps : List Nat) (cur : Nat) (hp : Bool) (s : VteTerminal)
    (hs : s.clampCursor = s) :
    stepByte (⟨.ground, ps, cur, hp⟩, s) 27 = (⟨.escape, ps, cur, hp⟩, s) := by
  simp [stepByte, advance, hs]

theorem step_escape_bracket (ps : List Nat) (cur : Nat) (hp : Bool) (s : VteTerminal)
    (hs : s.clampCursor = s) :
    stepByte (⟨.escape, ps, cur, hp⟩, s) 91 = (⟨.csi, [], 0, false⟩, s) := by
  simp [stepByte, advance, hs]

theorem step_csi_digit (ps : List Nat) (cur : Nat) (hp : Bool) (s : VteTerminal)
    (b : Nat) (h1 : 48 ≤ b) (h2 : b ≤ 57) (hs : s.clampCursor = s) :
    stepByte (⟨.csi, ps, cur, hp⟩, s) b =
      (⟨.csi, ps, cur * 10 + (b - 48), true⟩, s) := by
  have h27 : ¬b = 27 := by omega
  simp [stepByte, advance, h27, h1, h2, hs]

theorem step_csi_final (ps : List Nat) (cur : Nat) (hp : Bool) (s : VteTerminal)
    (f : Nat) (h1 : 64 ≤ f) (h2 : f ≤ 126) :
    stepByte (⟨.csi, ps, cur, hp⟩, s) f =
      (ParserSt.new,
       (s.csi_dispatch (if hp then ps ++ [cur] else ps) (Char.ofNat f)).clampCursor) := by
  have h27 : ¬f = 27 := by omega
  have hd : ¬(48 ≤ f ∧ f ≤ 57) := by omega
  have h59 : ¬f = 59 := by omega
  simp [stepByte, advance, h27, hd, h59, h1, h2]

theorem step_ground_print (ps : List Nat) (cur : Nat) (hp : Bool) (s : VteTerminal)
    (b : Nat) (h1 : 32 ≤ b) (h2 : b ≤ 126) :
    stepByte (⟨.ground, ps, cur, hp⟩, s) b =
      (⟨.ground, ps, cur, hp⟩, (s.print (Char.ofNat b)).clampCursor) := by
  have h27 : ¬b = 27 := by omega
  simp [stepByte, advance, h27, h1, h2]

theorem step_ground_exec (ps : List Nat) (cur : Nat) (hp : Bool) (s : VteTerminal)
    (b : Nat) (h1 : b < 32) (h27 : ¬b = 27) :
    stepByte (⟨.ground, ps, cur, hp⟩, s) b =
      (⟨.ground, ps, cur, hp⟩, (s.execute b).clampCursor) := by
  have hpr : ¬(32 ≤ b ∧ b ≤ 126) := by omega
  simp [stepByte, advance, h27, hpr, h1]

/-- C3: for every initial buffer with positive dimensions and in-bounds cursor
and every byte sequence, the cursor satisfies `0 ≤ col < width` and
`0 ≤ row < height` after each processed byte (that is, after every prefix of
the stream, and in particular at the end of `process`); and the clamp step
only ever rewrites the cursor: it leaves the cells and the dimensions of any
buffer untouched, so a clamp that fires changes no other part of the state. -/
theorem spec_C3_cursor_clamp_invariant (screen : List Char) (x y w h : Nat)
    (data : List Nat) (k : Nat) (t : VteTerminal)
    (hx : x < w) (hy : y < h) :
    (process ⟨screen, x, y, w, h⟩ data).inBounds ∧
    ((List.foldl stepByte (ParserSt.new, ⟨screen, x, y, w, h⟩) (data.take k)).2).inBounds ∧
    (t.clampCursor.screen = t.screen ∧ t.clampCursor.width = t.width ∧
     t.clampCursor.height = t.height) := by
  have hw : 0 < w := by omega
  have hh : 0 < h := by omega
  obtain ⟨_, _, hib⟩ :=
    foldl_dims_inBounds data ParserSt.new ⟨screen, x, y, w, h⟩ hw hh
  obtain ⟨_, _, hib'⟩ :=
    foldl_dims_inBounds (data.take k) ParserSt.new ⟨screen, x, y, w, h⟩ hw hh
  exact ⟨hib ⟨hx, hy⟩, hib' ⟨hx, hy⟩, VteTerminal.clampCursor_screen t,
    VteTerminal.clampCursor_width t, VteTerminal.clampCursor_height t⟩

/-- C3 witness: the invariant instantiated on a 2 by 2 buffer processing a
stream that mixes a CSI erase, a printable byte and a backspace. -/
theorem spec_C3_witness :
    (process ⟨['a', 'b', 'c', 'd'], 1, 0, 2, 2⟩ [27, 91, 50, 74, 97, 8]).inBounds ∧
    ((List.foldl stepByte (ParserSt.new, ⟨['a', 'b', 'c', 'd'], 1, 0, 2, 2⟩)
        ([27, 91, 50, 74, 97, 8].take 3)).2).inBounds ∧
    ((⟨['z'], 5, 7, 1, 1⟩ : VteTerminal).clampCursor.screen =
        (⟨['z'], 5, 7, 1, 1⟩ : VteTerminal).screen ∧
     (⟨['z'], 5, 7, 1, 1⟩ : VteTerminal).clampCursor.width =
        (⟨['z'], 5, 7, 1, 1⟩ : VteTerminal).width ∧
     (⟨['z'], 5, 7, 1, 1⟩ : VteTerminal).clampCursor.height =
        (⟨['z'], 5, 7, 1, 1⟩ : VteTerminal).height) :=
  spec_C3_cursor_clamp_invariant ['a', 'b', 'c', 'd'] 1 0 2 2
    [27, 91, 50, 74, 97, 8] 3 ⟨['z'], 5, 7, 1, 1⟩ (by decide) (by decide)

/-- C10: every interpreter operation preserves the cell-count invariant
`screen.length = width * height`: printing (including the wrap-and-scroll
path), every control byte handled by `execute` (CR, LF, BS, FF and all
others), every CSI dispatch, the clear, erase-in-line and cursor-move
primitives, and hence `process` on any byte stream; each scroll removes one
row from the top and appends exactly `width` blanks, so the grid never grows
or shrinks. -/
theorem spec_C10_cell_count_invariant (screen : List Char) (x y w h : Nat)
    (c ch : Char) (b r cl mode : Nat) (ps : List Nat) (data : List Nat)
    (hlen : screen.length = w * h) (hh : 0 < h) :
    ((⟨screen, x, y, w, h⟩ : VteTerminal).print c).screen.length = w * h ∧
    ((⟨screen, x, y, w, h⟩ : VteTerminal).execute b).screen.length = w * h ∧
    ((⟨screen, x, y, w, h⟩ : VteTerminal).csi_dispatch ps ch).screen.length = w * h ∧
    ((⟨screen, x, y, w, h⟩ : VteTerminal).clear_screen).screen.length = w * h ∧
    ((⟨screen, x, y, w, h⟩ : VteTerminal).erase_in_line mode).screen.length = w * h ∧
    ((⟨screen, x, y, w, h⟩ : VteTerminal).move_cursor r cl).screen.length = w * h ∧
    (process ⟨screen, x, y, w, h⟩ data).screen.length = w * h := by
  refine ⟨VteTerminal.print_length _ _ hlen hh,
    VteTerminal.execute_length _ _ hlen hh,
    VteTerminal.csi_dispatch_length _ _ _ hlen, ?_, ?_, hlen, ?_⟩
  · simp [VteTerminal.clear_screen]
  · rw [erase_in_line_length]; exact hlen
  · exact foldl_length data ParserSt.new _ hh hlen

/-- C10 witness: the cell-count invariant instantiated on a 2 by 2 buffer,
with a stream exercising print, line feed with scroll, and CSI erase. -/
theorem spec_C10_witness :
    ((⟨['a', 'b', 'c', 'd'], 1, 1, 2, 2⟩ : VteTerminal).print 'z').screen.length = 2 * 2 ∧
    ((⟨['a', 'b', 'c', 'd'], 1, 1, 2, 2⟩ : VteTerminal).execute 10).screen.length = 2 * 2 ∧
    ((⟨['a', 'b', 'c', 'd'], 1, 1, 2, 2⟩ : VteTerminal).csi_dispatch [0] 'J').screen.length = 2 * 2 ∧
    ((⟨['a', 'b', 'c', 'd'], 1, 1, 2, 2⟩ : VteTerminal).clear_screen).screen.length = 2 * 2 ∧
    ((⟨['a', 'b', 'c', 'd'], 1, 1, 2, 2⟩ : VteTerminal).erase_in_line 1).screen.length = 2 * 2 ∧
    ((⟨['a', 'b', 'c', 'd'], 1, 1, 2, 2⟩ : VteTerminal).move_cursor 0 0).screen.length = 2 * 2 ∧
    (process ⟨['a', 'b', 'c', 'd'], 1, 1, 2, 2⟩ [104, 105, 10, 10, 27, 91, 74]).screen.length = 2 * 2 :=
  spec_C10_cell_count_invariant ['a', 'b', 'c', 'd'] 1 1 2 2 'z' 'J' 10 0 0 1 [0]
    [104, 105, 10, 10, 27, 91, 74] (by decide) (by decide)

/-- C9: erase-in-display with parameter 2 or 3 (`ESC [ 2 J` or `ESC [ 3 J`)
on any buffer state with an in-bounds cursor blanks every cell and resets the
cursor to the origin. -/
theorem spec_C9_full_erase (screen : List Char) (x y w h : Nat)
    (hx : x < w) (hy : y < h) :
    process ⟨screen, x, y, w, h⟩ [27, 91, 50, 74] =
      ⟨List.replicate (w * h) ' ', 0, 0, w, h⟩ ∧
    process ⟨screen, x, y, w, h⟩ [27, 91, 51, 74] =
      ⟨List.replicate (w * h) ' ', 0, 0, w, h⟩ := by
  have hs : (⟨screen, x, y, w, h⟩ : VteTerminal).clampCursor = ⟨screen, x, y, w, h⟩ :=
    VteTerminal.clampCursor_eq_self _ hx hy
  have hclear : ∀ m : Nat, m = 2 ∨ m = 3 →
      (⟨screen, x, y, w, h⟩ : VteTerminal).csi_dispatch [m] (Char.ofNat 74) =
        ⟨List.replicate (w * h) ' ', 0, 0, w, h⟩ := by
    rintro m (rfl | rfl) <;> rfl
  have hcl : ((⟨List.replicate (w * h) ' ', 0, 0, w, h⟩ : VteTerminal)).clampCursor =
      ⟨List.replicate (w * h) ' ', 0, 0, w, h⟩ :=
    VteTerminal.clampCursor_eq_self _ (by simpa using Nat.lt_of_le_of_lt (Nat.zero_le x) hx)
      (by simpa using Nat.lt_of_le_of_lt (Nat.zero_le y) hy)
  constructor <;>
  · show (List.foldl stepByte (⟨.ground, [], 0, false⟩, ⟨screen, x, y, w, h⟩) _).2 = _
    simp only [List.foldl_cons, List.foldl_nil]
    rw [step_ground_esc _ _ _ _ hs, step_escape_bracket _ _ _ _ hs,
      step_csi_digit _ _ _ _ _ (by omega) (by omega) hs,
      step_csi_final _ _ _ _ _ (by omega) (by omega)]
    norm_num
    rw [hclear _ (by norm_num)]
    exact hcl

/-- C9 witness: `ESC [ 2 J` and `ESC [ 3 J` on a populated 2 by 2 buffer with
the cursor at column 1, row 0. -/
theorem spec_C9_witness :
    process ⟨['a', 'b', 'c', 'd'], 1, 0, 2, 2⟩ [27, 91, 50, 74] =
      ⟨List.replicate (2 * 2) ' ', 0, 0, 2, 2⟩ ∧
    process ⟨['a', 'b', 'c', 'd'], 1, 0, 2, 2⟩ [27, 91, 51, 74] =
      ⟨List.replicate (2 * 2) ' ', 0, 0, 2, 2⟩ :=
  spec_C9_full_erase ['a', 'b', 'c', 'd'] 1 0 2 2 (by decide) (by decide)

theorem foldl_mul_add (l : List Nat) : ∀ a : Nat,
    l.foldl (fun acc d => acc * 10 + d) a =
      a * 10 ^ l.length + Nat.ofDigits 10 l.reverse := by
  induction l with
  | nil => intro a; simp [Nat.ofDigits]
  | cons d l ih =>
      intro a
      rw [List.foldl_cons, ih (a * 10 + d), List.reverse_cons, Nat.ofDigits_append]
      simp [Nat.ofDigits]
      ring

theorem digitsBE_foldl (n : Nat) :
    (digitsBE n).foldl (fun acc d => acc * 10 + d) 0 = n := by
  unfold digitsBE
  split
  · simp [*]
  · rw [foldl_mul_add, List.reverse_reverse, Nat.ofDigits_digits]
    simp

theorem digitsBE_lt (n : Nat) : ∀ d ∈ digitsBE n, d < 10 := by
  unfold digitsBE
  split
  · intro d hd
    simp at hd
    omega
  · intro d hd
    rw [List.mem_reverse] at hd
    exact Nat.digits_lt_base (by norm_num) hd

theorem digitsBE_ne_nil (n : Nat) : digitsBE n ≠ [] := by
  unfold digitsBE
  split
  · simp
  · simp [Nat.digits_ne_nil_iff_ne_zero, *]

theorem foldl_digit_bytes (ds : List Nat) : ∀ (cur : Nat) (hp : Bool) (ps : List Nat)
    (s : VteTerminal), s.clampCursor = s → (∀ d ∈ ds, d < 10) →
    List.foldl stepByte (⟨.csi, ps, cur, hp⟩, s) (ds.map (· + 48)) =
      (⟨.csi, ps, ds.foldl (fun acc d => acc * 10 + d) cur, hp || !ds.isEmpty⟩, s) := by
  induction ds with
  | nil => intro cur hp ps s hs hd; simp
  | cons d ds ih =>
      intro cur hp ps s hs hd
      rw [List.map_cons, List.foldl_cons,
        step_csi_digit _ _ _ _ _ (by omega) (by have := hd d (by simp); omega) hs]
      have hcur : cur * 10 + (d + 48 - 48) = cur * 10 + d := by omega
      rw [hcur, ih _ _ _ _ hs (fun e he => hd e (by simp [he]))]
      simp

theorem process_csi_num (s : VteTerminal) (hs : s.clampCursor = s) (n f : Nat)
    (h1 : 64 ≤ f) (h2 : f ≤ 126) :
    process s (csiSeq n f) = (s.csi_dispatch [n] (Char.ofNat f)).clampCursor := by
  unfold process csiSeq digitBytes
  show (List.foldl stepByte (⟨.ground, [], 0, false⟩, s) _).2 = _
  rw [List.foldl_append, List.foldl_append]
  simp only [List.foldl_cons, List.foldl_nil]
  rw [step_ground_esc _ _ _ _ hs, step_escape_bracket _ _ _ _ hs,
    foldl_digit_bytes _ _ _ _ _ hs (digitsBE_lt n), digitsBE_foldl]
  have hne : (digitsBE n).isEmpty = false := by
    simp [List.isEmpty_iff, digitsBE_ne_nil n]
  rw [hne]
  rw [step_csi_final _ _ _ _ _ h1 h2]
  simp

theorem process_csi_noparam (s : VteTerminal) (hs : s.clampCursor = s) (f : Nat)
    (h1 : 64 ≤ f) (h2 : f ≤ 126) :
    process s (csiSeqNP f) = (s.csi_dispatch [] (Char.ofNat f)).clampCursor := by
  unfold process csiSeqNP
  show (List.foldl stepByte (⟨.ground, [], 0, false⟩, s) _).2 = _
  simp only [List.foldl_cons, List.foldl_nil]
  rw [step_ground_esc _ _ _ _ hs, step_escape_bracket _ _ _ _ hs,
    step_csi_final _ _ _ _ _ h1 h2]
  rfl

/-- C8: on any in-bounds cursor, `CSI n A` / `B` / `C` / `D` moves the cursor
up / down / right / left by the decimal parameter `n`, defaulting to 1 when
the parameter is absent; `A` and `D` saturate at 0 (truncated natural
subtraction), `B` and `C` saturate at `height-1` and `width-1` respectively,
and nothing else in the buffer changes. -/
theorem spec_C8_csi_cursor_moves (screen : List Char) (x y w h n : Nat)
    (hx : x < w) (hy : y < h) :
    process ⟨screen, x, y, w, h⟩ (csiSeq n 65) = ⟨screen, x, y - n, w, h⟩ ∧
    process ⟨screen, x, y, w, h⟩ (csiSeq n 66) = ⟨screen, x, min (y + n) (h - 1), w, h⟩ ∧
    process ⟨screen, x, y, w, h⟩ (csiSeq n 67) = ⟨screen, min (x + n) (w - 1), y, w, h⟩ ∧
    process ⟨screen, x, y, w, h⟩ (csiSeq n 68) = ⟨screen, x - n, y, w, h⟩ ∧
    process ⟨screen, x, y, w, h⟩ (csiSeqNP 65) = ⟨screen, x, y - 1, w, h⟩ ∧
    process ⟨screen, x, y, w, h⟩ (csiSeqNP 66) = ⟨screen, x, min (y + 1) (h - 1), w, h⟩ ∧
    process ⟨screen, x, y, w, h⟩ (csiSeqNP 67) = ⟨screen, min (x + 1) (w - 1), y, w, h⟩ ∧
    process ⟨screen, x, y, w, h⟩ (csiSeqNP 68) = ⟨screen, x - 1, y, w, h⟩ := by
  have hs : (⟨screen, x, y, w, h⟩ : VteTerminal).clampCursor = ⟨screen, x, y, w, h⟩ :=
    VteTerminal.clampCursor_eq_self _ hx hy
  refine ⟨?_, ?_, ?_, ?_, ?_, ?_, ?_, ?_⟩
  · rw [process_csi_num _ hs _ _ (by norm_num) (by norm_num)]
    exact VteTerminal.clampCursor_eq_self _ hx (by show y - n < h; omega)
  · rw [process_csi_num _ hs _ _ (by norm_num) (by norm_num)]
    exact VteTerminal.clampCursor_eq_self _ hx (by show min (y + n) (h - 1) < h; omega)
  · rw [process_csi_num _ hs _ _ (by norm_num) (by norm_num)]
    exact VteTerminal.clampCursor_eq_self _ (by show min (x + n) (w - 1) < w; omega) hy
  · rw [process_csi_num _ hs _ _ (by norm_num) (by norm_num)]
    exact VteTerminal.clampCursor_eq_self _ (by show x - n < w; omega) hy
  · rw [process_csi_noparam _ hs _ (by norm_num) (by norm_num)]
    exact VteTerminal.clampCursor_eq_self _ hx (by show y - 1 < h; omega)
  · rw [process_csi_noparam _ hs _ (by norm_num) (by norm_num)]
    exact VteTerminal.clampCursor_eq_self _ hx (by show min (y + 1) (h - 1) < h; omega)
  · rw [process_csi_noparam _ hs _ (by norm_num) (by norm_num)]
    exact VteTerminal.clampCursor_eq_self _ (by show min (x + 1) (w - 1) < w; omega) hy
  · rw [process_csi_noparam _ hs _ (by norm_num) (by norm_num)]
    exact VteTerminal.clampCursor_eq_self _ (by show x - 1 < w; omega) hy

/-- C8 witness: in a blank 80 by 24 buffer with the cursor at the origin,
`ESC [ 3 B` moves the cursor to row 3 and `ESC [ 100 B` clamps it at
row 23. -/
theorem spec_C8_witness :
    process (VteTerminal.new 80 24) (csiSeq 3 66) =
      ⟨List.replicate (80 * 24) ' ', 0, min (0 + 3) (24 - 1), 80, 24⟩ ∧
    process (VteTerminal.new 80 24) (csiSeq 100 66) =
      ⟨List.replicate (80 * 24) ' ', 0, min (0 + 100) (24 - 1), 80, 24⟩ ∧
    min (0 + 3) (24 - 1) = 3 ∧ min (0 + 100) (24 - 1) = 23 := by
  refine ⟨?_, ?_, by norm_num, by norm_num⟩
  · exact (spec_C8_csi_cursor_moves (List.replicate (80 * 24) ' ') 0 0 80 24 3
      (by norm_num) (by norm_num)).2.1
  · exact (spec_C8_csi_cursor_moves (List.replicate (80 * 24) ' ') 0 0 80 24 100
      (by norm_num) (by norm_num)).2.1

theorem foldl_join (rows : List (List Char)) : ∀ acc : List Char,
    rows.foldl (fun acc row => acc ++ row ++ ['\n']) acc =
      acc ++ rows.foldr (fun row t => row ++ '\n' :: t) [] := by
  induction rows with
  | nil => intro acc; simp
  | cons r rows ih =>
      intro acc
      rw [List.foldl_cons, ih]
      simp

theorem chunksFuel_join (w : Nat) (hw : 0 < w) : ∀ (h : Nat) (cells : List Char) (fuel : Nat),
    cells.length = w * h → cells.length ≤ fuel →
    (chunksFuel w fuel cells).foldr (fun row t => row ++ '\n' :: t) [] =
      gridLines h w cells := by
  intro h
  induction h with
  | zero =>
      intro cells fuel hlen hf
      have hnil : cells = [] := List.eq_nil_of_length_eq_zero (by omega)
      subst hnil
      cases fuel <;> simp [chunksFuel, gridLines]
  | succ h ih =>
      intro cells fuel hlen hf
      have hmul : w * (h + 1) = w * h + w := by ring
      obtain ⟨a, as, rfl⟩ : ∃ a as, cells = a :: as := by
        cases cells with
        | nil =>
            exfalso
            have := Nat.mul_pos hw (Nat.succ_pos h)
            simp at hlen
            omega
        | cons a as => exact ⟨a, as, rfl⟩
      cases fuel with
      | zero =>
          exfalso
          simp at hf
      | succ f =>
          simp only [chunksFuel, List.foldr_cons]
          rw [ih ((a :: as).drop w) f (by rw [List.length_drop, hlen, hmul]; omega)
            (by rw [List.length_drop]; omega)]
          rfl

theorem get_screen_eq_gridLines (w h : Nat) (cells : List Char) (x y : Nat)
    (hw : 0 < w) (hlen : cells.length = w * h) :
    VteTerminal.get_screen ⟨cells, x, y, w, h⟩ = gridLines h w cells := by
  unfold VteTerminal.get_screen
  rw [foldl_join]
  simp only [List.nil_append]
  exact chunksFuel_join w hw h cells cells.length hlen (le_refl _)

theorem gridLines_length (w : Nat) : ∀ (h : Nat) (cells : List Char),
    cells.length = w * h → (gridLines h w cells).length = w * h + h := by
  intro h
  induction h with
  | zero => intro cells hlen; simp [gridLines]
  | succ h ih =>
      intro cells hlen
      have hmul : w * (h + 1) = w * h + w := by ring
      simp only [gridLines]
      rw [List.length_append]
      simp only [List.length_cons]
      rw [ih (cells.drop w) (by simp [List.length_drop]; omega)]
      simp [List.length_take]
      omega

/-- C5 amended: `get_screen` returns the grid as `height` lines of `width`
characters, but every line, the last included, is followed by a newline
(`height*width` grid characters plus `height` newlines); it is a pure read,
a function of the buffer state producing only text and no new state. -/
theorem spec_C5_snapshot_shape (w h : Nat) (cells : List Char) (x y : Nat)
    (hw : 0 < w) (hlen : cells.length = w * h) :
    VteTerminal.get_screen ⟨cells, x, y, w, h⟩ = gridLines h w cells ∧
    (VteTerminal.get_screen ⟨cells, x, y, w, h⟩).length = w * h + h := by
  refine ⟨get_screen_eq_gridLines w h cells x y hw hlen, ?_⟩
  rw [get_screen_eq_gridLines w h cells x y hw hlen]
  exact gridLines_length w h cells hlen

/-- C5 witness: the 2 by 2 buffer `a b / c d` snapshots to the six
characters `a b newline c d newline`. -/
theorem spec_C5_witness :
    (VteTerminal.get_screen ⟨['a', 'b', 'c', 'd'], 0, 0, 2, 2⟩ =
        gridLines 2 2 ['a', 'b', 'c', 'd'] ∧
     (VteTerminal.get_screen ⟨['a', 'b', 'c', 'd'], 0, 0, 2, 2⟩).length = 2 * 2 + 2) ∧
    gridLines 2 2 ['a', 'b', 'c', 'd'] = ['a', 'b', '\n', 'c', 'd', '\n'] :=
  ⟨spec_C5_snapshot_shape 2 2 ['a', 'b', 'c', 'd'] 0 0 (by decide) (by decide),
   by decide⟩

/-- C7 counterexample: with height 3 and width 10, processing the four
single-character lines `A`, `B`, `C`, `D`, each terminated by a line feed,
does not leave lines 2, 3, 4 in rows 0, 1, 2 as the claim states: the fourth
line feed scrolls line 2 (`B`) off the screen as well, leaving `C` and `D` in
rows 0 and 1 (at columns 2 and 3, since a line feed does not reset the
column) and a blank bottom row. -/
theorem spec_C7_counterexample :
    'B' ∉ (process (VteTerminal.new 10 3) [65, 10, 66, 10, 67, 10, 68, 10]).screen ∧
    (process (VteTerminal.new 10 3) [65, 10, 66, 10, 67, 10, 68, 10]).screen.get? 2 =
      some 'C' ∧
    (process (VteTerminal.new 10 3) [65, 10, 66, 10, 67, 10, 68, 10]).screen.get? 13 =
      some 'D' := by
  decide

/-- C7 amended: in the 10 by 3 buffer, processing four printable
single-character lines each terminated by a line feed leaves the first and
second written lines no longer present and the buffer holding lines 3 and 4
in rows 0 and 1 (at columns 2 and 3 respectively, because a line feed
advances the row without resetting the column) with a blank bottom row and
the cursor at column 4, row 2: each line feed increments the row, and
whenever the row would exceed `height-1`, the topmost row's cells are
discarded, a blank row is appended at the bottom, and the row is pinned at
`height-1`. -/
theorem spec_C7_scroll (a b c d : Char)
    (ha1 : 32 ≤ a.toNat) (ha2 : a.toNat ≤ 126)
    (hb1 : 32 ≤ b.toNat) (hb2 : b.toNat ≤ 126)
    (hc1 : 32 ≤ c.toNat) (hc2 : c.toNat ≤ 126)
    (hd1 : 32 ≤ d.toNat) (hd2 : d.toNat ≤ 126)
    (hac : a ≠ c) (had : a ≠ d) (hasp : a ≠ ' ')
    (hbc : b ≠ c) (hbd : b ≠ d) (hbsp : b ≠ ' ') :
    process (VteTerminal.new 10 3) [a.toNat, 10, b.toNat, 10, c.toNat, 10, d.toNat, 10] =
      ⟨[' ', ' ', c, ' ', ' ', ' ', ' ', ' ', ' ', ' ',
        ' ', ' ', ' ', d, ' ', ' ', ' ', ' ', ' ', ' ',
        ' ', ' ', ' ', ' ', ' ', ' ', ' ', ' ', ' ', ' '], 4, 2, 10, 3⟩ ∧
    a ∉ (process (VteTerminal.new 10 3)
          [a.toNat, 10, b.toNat, 10, c.toNat, 10, d.toNat, 10]).screen ∧
    b ∉ (process (VteTerminal.new 10 3)
          [a.toNat, 10, b.toNat, 10, c.toNat, 10, d.toNat, 10]).screen := by
  have heq : process (VteTerminal.new 10 3)
      [a.toNat, 10, b.toNat, 10, c.toNat, 10, d.toNat, 10] =
      ⟨[' ', ' ', c, ' ', ' ', ' ', ' ', ' ', ' ', ' ',
        ' ', ' ', ' ', d, ' ', ' ', ' ', ' ', ' ', ' ',
        ' ', ' ', ' ', ' ', ' ', ' ', ' ', ' ', ' ', ' '], 4, 2, 10, 3⟩ := by
    show (List.foldl stepByte (⟨.ground, [], 0, false⟩, VteTerminal.new 10 3) _).2 = _
    simp only [List.foldl_cons, List.foldl_nil]
    rw [step_ground_print _ _ _ _ _ ha1 ha2, Char.ofNat_toNat]
    rw [show ((VteTerminal.new 10 3).print a).clampCursor =
      (⟨(List.replicate 30 ' ').set 0 a, 1, 0, 10, 3⟩ : VteTerminal) from rfl]
    rw [step_ground_exec _ _ _ _ _ (by norm_num) (by norm_num)]
    rw [show ((⟨(List.replicate 30 ' ').set 0 a, 1, 0, 10, 3⟩ : VteTerminal).execute
        10).clampCursor =
      (⟨(List.replicate 30 ' ').set 0 a, 1, 1, 10, 3⟩ : VteTerminal) from rfl]
    rw [step_ground_print _ _ _ _ _ hb1 hb2, Char.ofNat_toNat]
    rw [show ((⟨(List.replicate 30 ' ').set 0 a, 1, 1, 10, 3⟩ : VteTerminal).print
        b).clampCursor =
      (⟨((List.replicate 30 ' ').set 0 a).set 11 b, 2, 1, 10, 3⟩ : VteTerminal) from rfl]
    rw [step_ground_exec _ _ _ _ _ (by norm_num) (by norm_num)]
    rw [show ((⟨((List.replicate 30 ' ').set 0 a).set 11 b, 2, 1, 10, 3⟩ :
        VteTerminal).execute 10).clampCursor =
      (⟨((List.replicate 30 ' ').set 0 a).set 11 b, 2, 2, 10, 3⟩ : VteTerminal) from rfl]
    rw [step_ground_print _ _ _ _ _ hc1 hc2, Char.ofNat_toNat]
    rw [show ((⟨((List.replicate 30 ' ').set 0 a).set 11 b, 2, 2, 10, 3⟩ :
        VteTerminal).print c).clampCursor =
      (⟨(((List.replicate 30 ' ').set 0 a).set 11 b).set 22 c, 3, 2, 10, 3⟩ :
        VteTerminal) from rfl]
    rw [step_ground_exec _ _ _ _ _ (by norm_num) (by norm_num)]
    rw [show ((⟨(((List.replicate 30 ' ').set 0 a).set 11 b).set 22 c, 3, 2, 10, 3⟩ :
        VteTerminal).execute 10).clampCursor =
      (⟨((((List.replicate 30 ' ').set 0 a).set 11 b).set 22 c).drop 10 ++
          List.replicate 10 ' ', 3, 2, 10, 3⟩ : VteTerminal) from rfl]
    rw [step_ground_print _ _ _ _ _ hd1 hd2, Char.ofNat_toNat]
    rw [show ((⟨((((List.replicate 30 ' ').set 0 a).set 11 b).set 22 c).drop 10 ++
          List.replicate 10 ' ', 3, 2, 10, 3⟩ : VteTerminal).print d).clampCursor =
      (⟨(((((List.replicate 30 ' ').set 0 a).set 11 b).set 22 c).drop 10 ++
          List.replicate 10 ' ').set 23 d, 4, 2, 10, 3⟩ : VteTerminal) from rfl]
    rw [step_ground_exec _ _ _ _ _ (by norm_num) (by norm_num)]
    rfl
  refine ⟨heq, ?_, ?_⟩ <;> rw [heq] <;>
    simp [hac, had, hasp, hbc, hbd, hbsp]

/-- C7 witness: the amended scroll scenario on the concrete lines `A`, `B`,
`C`, `D`. -/
theorem spec_C7_witness :
    process (VteTerminal.new 10 3) [65, 10, 66, 10, 67, 10, 68, 10] =
      ⟨[' ', ' ', 'C', ' ', ' ', ' ', ' ', ' ', ' ', ' ',
        ' ', ' ', ' ', 'D', ' ', ' ', ' ', ' ', ' ', ' ',
        ' ', ' ', ' ', ' ', ' ', ' ', ' ', ' ', ' ', ' '], 4, 2, 10, 3⟩ ∧
    'A' ∉ (process (VteTerminal.new 10 3) [65, 10, 66, 10, 67, 10, 68, 10]).screen ∧
    'B' ∉ (process (VteTerminal.new 10 3) [65, 10, 66, 10, 67, 10, 68, 10]).screen :=
  spec_C7_scroll 'A' 'B' 'C' 'D' (by decide) (by decide) (by decide) (by decide)
    (by decide) (by decide) (by decide) (by decide) (by decide) (by decide)
    (by decide) (by decide) (by decide) (by decide)

/-- C6 witness: the full-path table instantiated at `/bin/zsh`, a path in the
table. -/
theorem spec_C6_witness :
    (term_for "/bin/zsh" = "xterm-256color" ↔
      ("/bin/zsh" = "/bin/bash" ∨ "/bin/zsh" = "/usr/bin/bash" ∨
       "/bin/zsh" = "/bin/zsh" ∨ "/bin/zsh" = "/usr/bin/zsh" ∨
       "/bin/zsh" = "/bin/fish" ∨ "/bin/zsh" = "/usr/bin/fish")) ∧
    (term_for "/bin/zsh" = "xterm-256color" ∨ term_for "/bin/zsh" = "vt100") :=
  spec_C6_term_from_full_path "/bin/zsh"
